import Mathlib

/-!
Verification development for the chat-widget DOM tool pipeline.

The definitions below are a shallow embedding of the repository's code:
the DOM search/mutation/highlight tools (src/tools/index.ts) and the
streaming chat turn handler (ChatWidget component).  Documents are
modelled as a tree of element/text nodes; inline style is modelled as a
key/value map (newest entry first) read through `getProp`, matching the
observable behaviour of the browser style object for the properties the
code touches: reading an absent property yields the empty string.
-/

namespace ChatWidgetSpec

/-! ### Executable string primitives

Kernel-computable equivalents of the toLowerCase, trim, startsWith and
includes string methods the code uses (the library versions are
compiled by well-founded recursion and do not reduce). -/

/-- ASCII lowercase of one character. -/
def lcChar (c : Char) : Char :=
  if 65 ≤ c.toNat && c.toNat ≤ 90 then Char.ofNat (c.toNat + 32) else c

/-- ASCII lowercase of a string (toLowerCase). -/
def lcStr (s : String) : String :=
  ⟨s.data.map lcChar⟩

/-- Strip leading and trailing whitespace (the trim method). -/
def trimStr (s : String) : String :=
  ⟨((s.data.dropWhile Char.isWhitespace).reverse.dropWhile Char.isWhitespace).reverse⟩

/-- Whether the second list is a prefix of the first. -/
def listStartsWith : List Char → List Char → Bool
  | _, [] => true
  | [], _ :: _ => false
  | a :: as, b :: bs => a == b && listStartsWith as bs

/-- Whether the needle occurs inside the haystack. -/
def listContains : List Char → List Char → Bool
  | [], needle => needle.isEmpty
  | a :: as, needle => listStartsWith (a :: as) needle || listContains as needle

/-- The startsWith method. -/
def strStartsWith (s pre : String) : Bool :=
  listStartsWith s.data pre.data

/-- Split on every single space character, as the split method with a
single-space separator: consecutive separators yield empty pieces. -/
def splitOnSpaceAux : List Char → List Char → List String
  | [], acc => [⟨acc.reverse⟩]
  | c :: cs, acc =>
    if c == ' ' then ⟨acc.reverse⟩ :: splitOnSpaceAux cs []
    else splitOnSpaceAux cs (c :: acc)

/-- Split a string on single spaces (the split method). -/
def splitOnSpace (s : String) : List String :=
  splitOnSpaceAux s.data []

/-- Whether a string contains any whitespace character. -/
def hasWS (s : String) : Bool :=
  s.data.any Char.isWhitespace

/-- Whether a character may start an attribute name: the ASCII letters,
underscore and colon of the XML Name production; characters beyond
ASCII are accepted as in the production's letter ranges. -/
def nameStartChar (c : Char) : Bool :=
  (65 ≤ c.toNat && c.toNat ≤ 90) || (97 ≤ c.toNat && c.toNat ≤ 122)
    || c == '_' || c == ':' || 128 ≤ c.toNat

/-- Whether a character may continue an attribute name. -/
def nameChar (c : Char) : Bool :=
  nameStartChar c || (48 ≤ c.toNat && c.toNat ≤ 57) || c == '-' || c == '.'

/-- The document-tree validity check setAttribute applies to a name
before mutating anything: the name must match the Name production, else
the call throws. -/
def validAttrName (s : String) : Bool :=
  match s.data with
  | [] => false
  | c :: cs => nameStartChar c && cs.all nameChar

/-- Inline style of a node: property name/value entries, newest first. -/
abbrev StyleMap := List (String × String)

/-- Read a style property; absent properties read as the empty string. -/
def getProp (s : StyleMap) (k : String) : String :=
  match s.find? (fun p => p.1 == k) with
  | some p => p.2
  | none => ""

/-- Write a style property (newest entry shadows older ones). -/
def setProp (s : StyleMap) (k v : String) : StyleMap :=
  (k, v) :: s

/-! ## Highlight engine (highlightElements, src/tools/index.ts lines 344-455)

Per matched element the code captures five style properties, applies the
requested effect, and after the duration restores the captured values
(`value || ''`). -/

/-- Highlight effect kinds (the `effect` enum of highlightElements). -/
inductive Effect where
  | border
  | background
  | pulse
  | shake
  | glow
deriving DecidableEq, Repr

/-- The five style properties captured before a highlight is applied. -/
structure CapturedStyles where
  border : String
  backgroundColor : String
  animation : String
  boxShadow : String
  transition : String
deriving DecidableEq, Repr

/-- Capture the five original style values of an element (lines 397-403). -/
def captureStyles (s : StyleMap) : CapturedStyles :=
  { border := getProp s "border"
    backgroundColor := getProp s "backgroundColor"
    animation := getProp s "animation"
    boxShadow := getProp s "boxShadow"
    transition := getProp s "transition" }

/-- Apply a highlight effect to an element's style (lines 406-425).
The transition is always set first; glow additionally sets the foreground
color so that the keyframes' currentColor reference resolves. -/
def applyEffect (e : Effect) (color : String) (duration : Nat) (s : StyleMap) : StyleMap :=
  let s1 := setProp s "transition" "all 0.3s ease"
  match e with
  | .border => setProp s1 "border" ("3px solid " ++ color)
  | .background => setProp s1 "backgroundColor" (color ++ "30")
  | .pulse => setProp s1 "animation" ("pulse-effect " ++ toString duration ++ "ms ease-in-out infinite")
  | .shake => setProp s1 "animation" ("shake-effect " ++ toString duration ++ "ms ease-in-out")
  | .glow =>
      setProp (setProp s1 "animation"
        ("glow-effect " ++ toString duration ++ "ms ease-in-out infinite")) "color" color

/-- The restore callback writes each captured value back as `value || ''`. -/
def orEmpty (v : String) : String :=
  if v == "" then "" else v

/-- Restore the captured styles after the duration elapses (lines 428-432). -/
def restoreStyles (c : CapturedStyles) (s : StyleMap) : StyleMap :=
  setProp (setProp (setProp (setProp (setProp s
    "border" (orEmpty c.border))
    "backgroundColor" (orEmpty c.backgroundColor))
    "animation" (orEmpty c.animation))
    "boxShadow" (orEmpty c.boxShadow))
    "transition" (orEmpty c.transition)

/-- One full highlight session on one node: capture, apply, then restore. -/
def highlightRound (e : Effect) (color : String) (duration : Nat) (s : StyleMap) : StyleMap :=
  restoreStyles (captureStyles s) (applyEffect e color duration s)

/-! ## Document tree model

Elements carry tag (lowercase), id attribute (empty string when absent,
as `el.id` in the DOM), class list, attribute map and inline style.  A
document is a forest of nodes. -/

/-- Data carried by one element node. -/
structure ElemData where
  tag : String
  id : String
  classes : List String
  attrs : List (String × String)
  style : StyleMap
deriving DecidableEq, Repr

mutual
/-- A document-tree node: an element with children, or a text node. -/
inductive DNode where
  | elem : ElemData → DForest → DNode
  | txt : String → DNode

/-- A sequence of sibling document-tree nodes. -/
inductive DForest where
  | nil : DForest
  | cons : DNode → DForest → DForest
end

mutual
/-- Concatenated descendant text of one node (textContent). -/
def textContentN : DNode → String
  | .txt s => s
  | .elem _ kids => textContentF kids

/-- Concatenated descendant text of a forest. -/
def textContentF : DForest → String
  | .nil => ""
  | .cons k ks => textContentN k ++ textContentF ks
end

/-- Trimmed non-empty direct text-node children, in order. -/
def directTextParts : DForest → List String
  | .nil => []
  | .cons (.txt s) ks => (if trimStr s == "" then [] else [trimStr s]) ++ directTextParts ks
  | .cons (.elem _ _) ks => directTextParts ks

/-- Direct (non-descendant) text of an element, pieces joined by spaces,
as computed for list items (lines 54-58 and 101-105). -/
def directTextOf (kids : DForest) : String :=
  String.intercalate " " (directTextParts kids)

/-- Substring test, as the string includes method. -/
def strContains (hay needle : String) : Bool :=
  listContains hay.data needle.data

/-- The class marking the widget's own rendered subtree. -/
def widgetClass : String := "chat-widget-container"

/-- One element of the flattened document, with the context the tools
consult: whether the element lies inside the widget's own subtree
(el.closest of the widget container class), the parent tag and the
1-based position among the parent's element children, the full text
content and the direct text. -/
structure FlatElem where
  data : ElemData
  inWidget : Bool
  parent : Option (String × Nat)
  textC : String
  directText : String
deriving DecidableEq, Repr

mutual
/-- Flatten one node in document order given ancestor context. -/
def flattenNode : DNode → Bool → Option (String × Nat) → List FlatElem
  | .txt _, _, _ => []
  | .elem d kids, inW, par =>
    let inW2 := inW || d.classes.contains widgetClass
    { data := d, inWidget := inW2, parent := par,
      textC := textContentF kids, directText := directTextOf kids } ::
      flattenForest kids inW2 d.tag 1

/-- Flatten a forest of siblings; `i` is the 1-based element index. -/
def flattenForest : DForest → Bool → String → Nat → List FlatElem
  | .nil, _, _, _ => []
  | .cons (.txt _) ks, inW, ptag, i => flattenForest ks inW ptag i
  | .cons (.elem d kids) ks, inW, ptag, i =>
      flattenNode (.elem d kids) inW (some (ptag, i)) ++ flattenForest ks inW ptag (i + 1)
end

/-- Flatten a whole document; top-level nodes have no parent element. -/
def flattenTop : DForest → List FlatElem
  | .nil => []
  | .cons k ks => flattenNode k false none ++ flattenTop ks

/-! ## Selectors

The CSS selector fragment the tools construct and pass to
querySelectorAll: id, class, tag, or the universal selector. -/

/-- A CSS selector of the shapes the tools use. -/
inductive Selector where
  | byId : String → Selector
  | byClass : String → Selector
  | byTag : String → Selector
  | univ : Selector
deriving DecidableEq, Repr

/-- Whether an element satisfies a selector. -/
def selMatches : Selector → ElemData → Bool
  | .byId s, d => d.id == s
  | .byClass s, d => d.classes.contains s
  | .byTag s, d => d.tag == s
  | .univ, _ => true

/-- Document-order list of elements matching a selector
(querySelectorAll). -/
def querySelAll (doc : DForest) (sel : Selector) : List FlatElem :=
  (flattenTop doc).filter (fun f => selMatches sel f.data)

/-! ## Node locator and describer (searchElements, lines 5-173) -/

/-- The searchType enum of searchElements. -/
inductive SearchType where
  | text
  | tag
  | attrSearch
  | classSearch
  | idSearch
  | all
deriving DecidableEq, Repr

/-- The text-search filter callback (lines 48-68): widget elements are
skipped; list items match when the query is literally li, or when the
direct or full text contains the query case-insensitively; other
elements match on full text containment. -/
def textMatches (value : String) (f : FlatElem) : Bool :=
  if f.inWidget then false
  else if f.data.tag == "li" then
    lcStr value == "li"
      || strContains (lcStr f.directText) (lcStr value)
      || strContains (lcStr f.textC) (lcStr value)
  else strContains (lcStr f.textC) (lcStr value)

/-- Candidate elements per search kind (the switch at lines 31-88),
before the common widget filter and limit at lines 91-93. -/
def selectCandidates (doc : DForest) (ty : SearchType) (value : String)
    (tagFilter : Option String) : List FlatElem :=
  let fl := flattenTop doc
  match ty with
  | .all =>
    if lcStr value == "list" || strContains (lcStr value) "list items" then
      fl.filter (fun f => f.data.tag == "li")
    else
      fl.filter (fun f => !f.inWidget && strContains (lcStr f.textC) (lcStr value))
  | .text =>
    let pool : List FlatElem :=
      match tagFilter with
      | some t => fl.filter (fun f => f.data.tag == t)
      | none => fl
    pool.filter (textMatches value)
  | .tag => fl.filter (fun f => f.data.tag == value && !f.inWidget)
  | .attrSearch => fl.filter (fun f => f.data.attrs.any (fun p => p.1 == value))
  | .classSearch => fl.filter (fun f => f.data.classes.contains value)
  | .idSearch =>
    match fl.find? (fun f => f.data.id == value) with
    | some f => [f]
    | none => []

/-- The elements a search finally operates on: candidates with widget
elements filtered out, truncated to the limit (lines 91-93). -/
def searchSelected (doc : DForest) (ty : SearchType) (value : String)
    (tagFilter : Option String) (limit : Nat) : List FlatElem :=
  ((selectCandidates doc ty value tagFilter).filter (fun f => !f.inWidget)).take limit

/-- The located-node descriptor returned per element (lines 116-150).
Optional fields stay absent exactly when the code leaves them unset. -/
structure Descriptor where
  tagName : String
  text : String
  idOut : Option String
  classesOut : Option (List String)
  selector : Option String
  attributes : List (String × String)
deriving DecidableEq, Repr

/-- The className string of an element (space-joined class list). -/
def classNameOf (d : ElemData) : String :=
  String.intercalate " " d.classes

/-- The fixed attribute whitelist surfaced in descriptors (line 141). -/
def attrWhitelist : List String :=
  ["href", "src", "type", "name", "value", "placeholder"]

/-- Build the descriptor for one located element (lines 96-150):
text extraction (direct text for list items, else trimmed full text,
truncated to 100 chars), then the selector derivation — id when truthy;
otherwise, only when className is truthy, the first non-widget class or
the positional nth-child fallback. -/
def buildResult (f : FlatElem) : Descriptor :=
  let textContent :=
    if f.data.tag == "li" then
      if f.directText == "" then trimStr f.textC else f.directText
    else trimStr f.textC
  let attrs := attrWhitelist.filterMap
    (fun a => (f.data.attrs.find? (fun p => p.1 == a)).map (fun p => (a, p.2)))
  let base : Descriptor :=
    { tagName := f.data.tag, text := textContent.take 100,
      idOut := none, classesOut := none, selector := none, attributes := attrs }
  if f.data.id != "" then
    { base with idOut := some f.data.id, selector := some ("#" ++ f.data.id) }
  else if classNameOf f.data != "" then
    let cs := f.data.classes.filter (fun c => !strStartsWith c "chat-widget")
    if cs.length > 0 then
      { base with classesOut := some cs, selector := some ("." ++ cs.headD "") }
    else
      match f.parent with
      | some (ptag, k) =>
        let posSel := ptag ++ " > " ++ f.data.tag ++ ":nth-child(" ++ toString k ++ ")"
        { base with classesOut := some cs, selector := some posSel }
      | none => { base with classesOut := some cs }
  else base

/-- The result object of searchElements (lines 157-162). -/
structure SearchResult where
  success : Bool
  results : List Descriptor
  totalFound : Nat
deriving DecidableEq, Repr

/-- The searchElements tool. -/
def searchElements (doc : DForest) (ty : SearchType) (value : String)
    (tagFilter : Option String) (limit : Nat) : SearchResult :=
  let rs := (searchSelected doc ty value tagFilter limit).map buildResult
  { success := true, results := rs, totalFound := rs.length }

/-! ## Mutation engine (modifyElement, lines 175-259)

modifyElement queries all nodes matching the selector with no widget
exclusion, applies the action to each, and reports success with the
match count; zero matches is an early failure return. -/

/-- The action enum of modifyElement. -/
inductive MAction where
  | text
  | style
  | attr
  | addClass
  | removeClass
  | remove
deriving DecidableEq, Repr

/-- Parse a semicolon-separated style string into property/value pairs;
malformed pairs are skipped (lines 210-216). -/
def parseStylePairs (s : String) : List (String × String) :=
  (((s.splitOn ";").map trimStr).filter (fun p => p != "")).filterMap
    (fun pair =>
      match (pair.splitOn ":").map trimStr with
      | p :: v :: _ => if p != "" && v != "" then some (p, v) else none
      | _ => none)

/-- Apply the style action to one element's inline style (lines 207-218):
only when a value is given, each parsed pair is written. -/
def applyStyleAction (st : StyleMap) (value : Option String) : StyleMap :=
  match value with
  | some s =>
    if s != "" then (parseStylePairs s).foldl (fun acc p => setProp acc p.1 p.2) st
    else st
  | none => st

/-- Truthiness of the attribute name together with definedness of the
value, the guard of the attribute action (line 220). -/
def attrOk (attrName value : Option String) : Bool :=
  (match attrName with
   | some s => s != ""
   | none => false) && value.isSome

/-- Apply the attribute action to one element (lines 219-223): set the
attribute only when the name is truthy and the value defined, on the
path where the name validation setAttribute performs has passed. -/
def applyAttrAction (d : ElemData) (attrName value : Option String) : ElemData :=
  match attrName, value with
  | some k, some v => if k != "" then { d with attrs := setProp d.attrs k v } else d
  | _, _ => d

/-- classList.add of each space-separated token (lines 224-228), on the
path where token validation has passed (the call validates every token
before mutating anything; a failing validation is modelled by
`actionThrows`). -/
def applyAddClass (d : ElemData) (value : Option String) : ElemData :=
  match value with
  | some s =>
    if s != "" then
      { d with classes :=
          (splitOnSpace s).foldl (fun cs t => if cs.contains t then cs else cs ++ [t]) d.classes }
    else d
  | none => d

/-- classList.remove of each space-separated token (lines 229-233), on
the path where token validation has passed. -/
def applyRemoveClass (d : ElemData) (value : Option String) : ElemData :=
  match value with
  | some s =>
    if s != "" then { d with classes := d.classes.filter (fun c => !(splitOnSpace s).contains c) }
    else d
  | none => d

mutual
/-- Transform one node under a mutation: a matched node is changed per
the action (`remove` detaches it, `text` replaces its children with one
text node, the others update its data and recurse); unmatched nodes
recurse into their children. -/
def modifyNode (sel : Selector) (act : MAction) (value attrName : Option String) :
    DNode → Option DNode
  | .txt s => some (.txt s)
  | .elem d kids =>
    if selMatches sel d then
      match act with
      | .remove => none
      | .text => some (.elem d (.cons (.txt (value.getD "")) .nil))
      | .style =>
        some (.elem { d with style := applyStyleAction d.style value }
          (modifyForest sel act value attrName kids))
      | .attr =>
        some (.elem (applyAttrAction d attrName value)
          (modifyForest sel act value attrName kids))
      | .addClass =>
        some (.elem (applyAddClass d value) (modifyForest sel act value attrName kids))
      | .removeClass =>
        some (.elem (applyRemoveClass d value) (modifyForest sel act value attrName kids))
    else some (.elem d (modifyForest sel act value attrName kids))

/-- Transform a forest under a mutation, dropping removed nodes. -/
def modifyForest (sel : Selector) (act : MAction) (value attrName : Option String) :
    DForest → DForest
  | .nil => .nil
  | .cons k ks =>
    match modifyNode sel act value attrName k with
    | some k2 => .cons k2 (modifyForest sel act value attrName ks)
    | none => modifyForest sel act value attrName ks
end

/-- The result object of modifyElement. -/
structure ModResult where
  success : Bool
  elementsModified : Nat
deriving DecidableEq, Repr

/-- Whether the mutation action throws on a target element.  The
throwing document-tree calls validate their input before mutating
anything, and the validation depends only on the action's value and
attribute name, never on the node: classList.add and classList.remove
throw when any token produced by splitting the value on single spaces
is empty or contains whitespace, and setAttribute throws when the
attribute name does not match the Name production.  The text, style and
remove actions never throw. -/
def actionThrows (act : MAction) (value attrName : Option String) : Bool :=
  match act with
  | .addClass =>
    (match value with
     | some s => s != "" && (splitOnSpace s).any (fun t => t == "" || hasWS t)
     | none => false)
  | .removeClass =>
    (match value with
     | some s => s != "" && (splitOnSpace s).any (fun t => t == "" || hasWS t)
     | none => false)
  | .attr =>
    if attrOk attrName value then !validAttrName (attrName.getD "") else false
  | _ => false

/-- The modifyElement tool (lines 183-258): query all matches with no
widget exclusion; zero matches returns failure (early, before any
action runs) with the document untouched.  When the action throws, the
exception escapes the forEach at its first iteration — before any node
has been mutated, since the throwing calls validate before mutating and
the validation is node-independent — and the catch (lines 249-257)
reports failure with zero modified, the document untouched.  Otherwise
every match is modified and the match count reported. -/
def modifyElement (doc : DForest) (sel : Selector) (act : MAction)
    (value attrName : Option String) : DForest × ModResult :=
  let matched := querySelAll doc sel
  if matched.length == 0 then (doc, { success := false, elementsModified := 0 })
  else if actionThrows act value attrName then
    (doc, { success := false, elementsModified := 0 })
  else (modifyForest sel act value attrName doc,
    { success := true, elementsModified := matched.length })

/-! ## Highlight tool (highlightElements, lines 344-455) -/

mutual
/-- Apply a highlight effect to every matched element of a node. -/
def highlightNode (sel : Selector) (e : Effect) (color : String) (duration : Nat) :
    DNode → DNode
  | .txt s => .txt s
  | .elem d kids =>
    let d2 := if selMatches sel d then { d with style := applyEffect e color duration d.style }
      else d
    .elem d2 (highlightForest sel e color duration kids)

/-- Apply a highlight effect across a forest. -/
def highlightForest (sel : Selector) (e : Effect) (color : String) (duration : Nat) :
    DForest → DForest
  | .nil => .nil
  | .cons k ks => .cons (highlightNode sel e color duration k) (highlightForest sel e color duration ks)
end

/-- The result object of highlightElements. -/
structure HlResult where
  success : Bool
  elementsHighlighted : Nat
deriving DecidableEq, Repr

/-- The highlightElements tool (lines 352-454): query all matches with
no widget exclusion; zero matches returns failure, otherwise the effect
is applied to every match (restoration is scheduled separately per
element, modelled by restoreStyles). -/
def highlightElements (doc : DForest) (sel : Selector) (e : Effect) (color : String)
    (duration : Nat) : DForest × HlResult :=
  let matched := querySelAll doc sel
  if matched.length == 0 then (doc, { success := false, elementsHighlighted := 0 })
  else (highlightForest sel e color duration doc,
    { success := true, elementsHighlighted := matched.length })

/-! ## Streaming orchestrator (ChatWidget handleSubmit)

One turn: the guard ignores a submission while a turn is in flight, the
user message and an empty assistant placeholder are appended, the event
stream is folded into the message list, and an uncaught fault appends a
generic system failure message.  Tool-call arguments and results are
kept as opaque strings. -/

/-- Message roles. -/
inductive Role where
  | user
  | assistant
  | system
  | tool
deriving DecidableEq, Repr

/-- A tool invocation: correlating id, tool name, arguments, and the
result payload once attached. -/
structure ToolInvocation where
  toolCallId : String
  toolName : String
  args : String
  result : Option String
deriving DecidableEq, Repr

/-- A chat message. -/
structure Message where
  id : String
  role : Role
  content : String
  toolInvocations : Option (List ToolInvocation)
deriving DecidableEq, Repr

/-- A typed event of the model's full stream. -/
inductive StreamPart where
  | textDelta : String → StreamPart
  | toolCall : String → String → String → StreamPart
  | toolResult : String → String → StreamPart
  | errorPart : String → StreamPart
deriving DecidableEq, Repr

/-- Per-turn loop state: the rendered message list, the accumulated
assistant text, and the invocation list.  The code's currentToolCall
variable always references the most recently pushed invocation, so it
is represented by the last element of the invocation list. -/
structure TurnState where
  messages : List Message
  fullContent : String
  toolInvocations : List ToolInvocation
deriving DecidableEq, Repr

/-- Process one stream event (the switch at lines 176-227).
A text delta appends to the placeholder content; a tool call opens a new
invocation; a tool result is attached only when its id equals the id of
the most recent invocation, updating the placeholder's invocation list;
error events only log. -/
def streamStep (aid : String) (st : TurnState) : StreamPart → TurnState
  | .textDelta t =>
    if t == "" then st
    else
      let full := st.fullContent ++ t
      { st with
        fullContent := full
        messages := st.messages.map
          (fun m => if m.id == aid then { m with content := full } else m) }
  | .toolCall cid name input =>
    { st with toolInvocations :=
        st.toolInvocations ++ [{ toolCallId := cid, toolName := name, args := input, result := none }] }
  | .toolResult cid out =>
    match st.toolInvocations.getLast? with
    | some c =>
      if c.toolCallId == cid then
        let invs := st.toolInvocations.dropLast ++ [{ c with result := some out }]
        { st with
          toolInvocations := invs
          messages := st.messages.map
            (fun m => if m.id == aid then { m with toolInvocations := some invs } else m) }
      else st
    | none => st
  | .errorPart _ => st

/-- Fold a sequence of stream events. -/
def runStream (aid : String) (parts : List StreamPart) (st : TurnState) : TurnState :=
  parts.foldl (streamStep aid) st

/-- The generic failure notice of the catch block (line 233). -/
def errorNotice : String := "Sorry, something went wrong. Please try again."

/-- Conversation state owned by the component. -/
structure ChatState where
  messages : List Message
  isLoading : Bool
deriving DecidableEq, Repr

/-- One submission (handleSubmit, lines 99-240): ignored while loading
or on blank input; otherwise the user message and an empty assistant
placeholder are appended, the consumed prefix of the stream is folded
in, a fault appends a system message with the generic notice, and
loading is finally cleared.  `uid`, `aid`, `eid` stand for the
timestamp-derived message ids; `consumed` is the prefix of stream events
processed before exhaustion or fault. -/
def handleSubmit (st : ChatState) (input : String) (uid aid eid : String)
    (consumed : List StreamPart) (fault : Bool) : ChatState :=
  if trimStr input == "" || st.isLoading then st
  else
    let userMsg : Message := { id := uid, role := .user, content := trimStr input, toolInvocations := none }
    let placeholder : Message := { id := aid, role := .assistant, content := "", toolInvocations := none }
    let start : TurnState :=
      { messages := st.messages ++ [userMsg, placeholder], fullContent := "", toolInvocations := [] }
    let mid := runStream aid consumed start
    let msgs :=
      if fault then
        mid.messages ++ [{ id := eid, role := .system, content := errorNotice, toolInvocations := none }]
      else mid.messages
    { messages := msgs, isLoading := false }

/-! ## Example documents and states used as concrete inputs -/

/-- A bare list item: no id, no class, a single text child. -/
def plainLi (s : String) : DNode :=
  .elem { tag := "li", id := "", classes := [], attrs := [], style := [] }
    (.cons (.txt s) .nil)

/-- The spec's example document with two bare list items. -/
def ulDoc : DForest :=
  .cons (.elem { tag := "ul", id := "", classes := [], attrs := [], style := [] }
    (.cons (plainLi "Apples") (.cons (plainLi "Bread") .nil))) .nil

/-- The widget's own container element. -/
def widgetContainerData : ElemData :=
  { tag := "div", id := "", classes := ["chat-widget-container"], attrs := [], style := [] }

/-- The paragraph inside the widget container. -/
def victimData : ElemData :=
  { tag := "p", id := "", classes := ["victim"], attrs := [], style := [] }

/-- A document whose only content is the widget's own container holding
one paragraph node. -/
def widgetDoc : DForest :=
  .cons (.elem widgetContainerData (.cons (.elem victimData (.cons (.txt "hi") .nil)) .nil)) .nil

/-- A turn state holding only the assistant placeholder message. -/
def demoStart : TurnState :=
  { messages := [{ id := "9", role := .assistant, content := "", toolInvocations := none }]
    fullContent := ""
    toolInvocations := [] }

/-- The turn state after two tool-call events and no result events:
both invocations are open. -/
def demoTwoCalls : TurnState :=
  runStream "9"
    [.toolCall "t1" "searchElements" "a1", .toolCall "t2" "modifyElement" "a2"] demoStart

/-- A turn state with a single open invocation. -/
def demoOneCall : TurnState :=
  { messages := [{ id := "9", role := .assistant, content := "", toolInvocations := none }]
    fullContent := ""
    toolInvocations := [{ toolCallId := "t1", toolName := "searchElements", args := "a1", result := none }] }

/-- The flattened form of the first bare list item of `ulDoc`. -/
def appleFlat : FlatElem :=
  { data := { tag := "li", id := "", classes := [], attrs := [], style := [] }
    inWidget := false
    parent := some ("ul", 1)
    textC := "Apples"
    directText := "Apples" }

/-- A non-widget list item whose text does not mention the query. -/
def liFlat : FlatElem :=
  { data := { tag := "li", id := "", classes := [], attrs := [], style := [] }
    inWidget := false
    parent := none
    textC := "zz"
    directText := "zz" }

/-- The element data of the widget-internal paragraph after a border
highlight has been applied to it. -/
def victimHighlightedData : ElemData :=
  { tag := "p"
    id := ""
    classes := ["victim"]
    attrs := []
    style := [("border", "3px solid red"), ("transition", "all 0.3s ease")] }

/-- The flattened widget-internal paragraph carrying the applied
highlight style. -/
def victimHighlighted : FlatElem :=
  { data := victimHighlightedData
    inWidget := true
    parent := some ("div", 1)
    textC := "hi"
    directText := "hi" }

/-! ## Helper lemmas -/

theorem getProp_setProp (s : StyleMap) (k v k2 : String) :
    getProp (setProp s k v) k2 = if k2 == k then v else getProp s k2 := by
  by_cases h : k = k2
  · subst h
    simp [getProp, setProp, List.find?]
  · have h1 : (k == k2) = false := by simp [h]
    have h2 : (k2 == k) = false := by
      simp only [beq_eq_false_iff_ne, ne_eq]
      exact fun hx => h hx.symm
    simp [getProp, setProp, List.find?, h1, h2]

theorem orEmpty_eq (v : String) : orEmpty v = v := by
  unfold orEmpty
  split
  · rename_i h
    simp only [beq_iff_eq] at h
    exact h.symm
  · rfl

theorem captureStyles_restoreStyles (c : CapturedStyles) (t : StyleMap) :
    captureStyles (restoreStyles c t) = c := by
  cases c
  simp [captureStyles, restoreStyles, getProp_setProp, orEmpty_eq]

theorem getProp_applyEffect_transition (e : Effect) (color : String) (duration : Nat)
    (s : StyleMap) : getProp (applyEffect e color duration s) "transition" = "all 0.3s ease" := by
  cases e <;> simp [applyEffect, getProp_setProp]

/-! ## Claims -/

set_option maxRecDepth 40000 in
/-- Claim C1: the spec states every located node receives a selector,
with a positional nth-child fallback for nodes with no id and no class.
The code only reaches the positional fallback when the className string
is non-empty, so a bare list item receives no selector at all: on the
spec's own example document both returned descriptors carry no selector,
while their text fields are extracted as specified. -/
theorem c1_bare_node_selector_missing :
    (searchElements ulDoc .tag "li" none 10).results.map (fun r => (r.selector, r.text))
      = [(none, "Apples"), (none, "Bread")] := by decide

/-- Claim C3, counterexample: for the glow effect the node's prior
visual state is not restored exactly — the foreground color set by glow
is not among the captured properties and survives restoration. -/
theorem c3_glow_color_survives_restore :
    getProp (highlightRound .glow "#ff0000" 2000 []) "color" = "#ff0000"
    ∧ getProp ([] : StyleMap) "color" = "" := by decide

/-- Claim C3, amended: once the scheduled duration elapses, the five
captured style properties (border, background color, animation,
box-shadow, transition) are restored to their pre-highlight values for
every effect kind; the glow effect's foreground-color assignment is not
captured and is not restored. -/
theorem c3_captured_styles_restored (s : StyleMap) (e : Effect) (color : String)
    (duration : Nat) :
    captureStyles (highlightRound e color duration s) = captureStyles s := by
  unfold highlightRound
  exact captureStyles_restoreStyles _ _

/-- Claim C6, counterexample: the claim is not universal.  An addClass
mutation whose value a  b splits into an empty token makes the
classList.add call throw at its first, pre-mutation validation step, so
although the selector matches both list items the catch path reports
failure with zero modified and the document is untouched. -/
theorem c6_throwing_action_reports_failure :
    0 < (querySelAll ulDoc (.byTag "li")).length
    ∧ (modifyElement ulDoc (.byTag "li") .addClass (some "a  b") none).2
      = { success := false, elementsModified := 0 }
    ∧ (modifyElement ulDoc (.byTag "li") .addClass (some "a  b") none).1 = ulDoc := by
  refine ⟨by decide, by decide, by rfl⟩

/-- Claim C6, amended: a mutate call whose selector matches zero nodes
returns failure with zero affected and the document untouched.  When at
least one node matches, the result is success with the full match count
provided no mutation action throws; if the action does throw (a class
token that is empty or carries whitespace, or an invalid attribute
name), the catch reports failure with zero affected and the document
stays untouched. -/
theorem c6_mutate_result_contract (doc : DForest) (sel : Selector) (act : MAction)
    (v a : Option String) :
    ((querySelAll doc sel).length = 0 →
      modifyElement doc sel act v a = (doc, { success := false, elementsModified := 0 }))
    ∧ (0 < (querySelAll doc sel).length → actionThrows act v a = false →
      (modifyElement doc sel act v a).2
        = { success := true, elementsModified := (querySelAll doc sel).length })
    ∧ (0 < (querySelAll doc sel).length → actionThrows act v a = true →
      modifyElement doc sel act v a = (doc, { success := false, elementsModified := 0 })) := by
  refine ⟨?_, ?_, ?_⟩
  · intro h
    simp [modifyElement, h]
  · intro h ht
    have hne : (querySelAll doc sel).length ≠ 0 := Nat.pos_iff_ne_zero.mp h
    simp [modifyElement, hne, ht]
  · intro h ht
    have hne : (querySelAll doc sel).length ≠ 0 := Nat.pos_iff_ne_zero.mp h
    simp [modifyElement, hne, ht]

/-- Witness for C6 at concrete inputs: a missing class fails with zero
affected; a tag selector matching both list items with a non-throwing
text action succeeds with count two; the same selector with a throwing
addClass value fails with zero affected. -/
theorem c6_mutate_witness :
    modifyElement ulDoc (.byClass "missing") .remove none none
      = (ulDoc, { success := false, elementsModified := 0 })
    ∧ (modifyElement ulDoc (.byTag "li") .text (some "Hello") none).2
      = { success := true, elementsModified := 2 }
    ∧ modifyElement ulDoc (.byTag "li") .addClass (some "a  b") none
      = (ulDoc, { success := false, elementsModified := 0 }) := by
  refine ⟨?_, ?_, ?_⟩
  · exact (c6_mutate_result_contract ulDoc (.byClass "missing") .remove none none).1 (by decide)
  · exact ((c6_mutate_result_contract ulDoc (.byTag "li") .text (some "Hello") none).2.1
      (by decide) (by decide)).trans (by decide)
  · exact (c6_mutate_result_contract ulDoc (.byTag "li") .addClass (some "a  b") none).2.2
      (by decide) (by decide)

/-- Claim C7: every search returns at most `limit` results, and the
elements a search operates on never include a node inside the widget's
own subtree. -/
theorem c7_search_limit_and_widget_exclusion (doc : DForest) (ty : SearchType)
    (value : String) (tagF : Option String) (limit : Nat) :
    (searchElements doc ty value tagF limit).results.length ≤ limit
    ∧ ∀ f ∈ searchSelected doc ty value tagF limit, f.inWidget = false := by
  constructor
  · show ((searchSelected doc ty value tagF limit).map buildResult).length ≤ limit
    rw [List.length_map, searchSelected, List.length_take]
    exact min_le_left _ _
  · intro f hf
    have hf2 := List.mem_of_mem_take hf
    have hfw := (List.mem_filter.mp hf2).2
    simpa using hfw

/-- Witness for C7 at a concrete search. -/
theorem c7_search_witness :
    (searchElements ulDoc .tag "li" none 10).results.length ≤ 10
    ∧ appleFlat.inWidget = false := by
  constructor
  · exact (c7_search_limit_and_widget_exclusion ulDoc .tag "li" none 10).1
  · exact (c7_search_limit_and_widget_exclusion ulDoc .tag "li" none 10).2 appleFlat (by decide)

/-- Claim C8: in a text search with the literal query li, every
non-widget list-item element satisfies the text filter regardless of its
textual content. -/
theorem c8_li_query_matches_all_list_items (f : FlatElem) (h1 : f.data.tag = "li")
    (h2 : f.inWidget = false) :
    textMatches "li" f = true := by
  have hl : (lcStr "li" == "li") = true := by decide
  simp [textMatches, h1, h2, hl]

/-- Witness for C8: a list item whose text has nothing to do with the
query still matches. -/
theorem c8_li_query_witness : textMatches "li" liFlat = true :=
  c8_li_query_matches_all_list_items liFlat rfl rfl

/-- Claim C9: a new submission while a turn is in flight is ignored and
leaves the conversation state unchanged. -/
theorem c9_submission_ignored_while_loading (st : ChatState) (input : String)
    (uid aid eid : String) (consumed : List StreamPart) (fault : Bool)
    (h : st.isLoading = true) :
    handleSubmit st input uid aid eid consumed fault = st := by
  simp [handleSubmit, h]

/-- Witness for C9 at a concrete in-flight state. -/
theorem c9_submission_witness :
    handleSubmit { messages := [], isLoading := true } "hello" "u" "a" "e" [] false
      = { messages := [], isLoading := true } :=
  c9_submission_ignored_while_loading _ _ _ _ _ _ _ rfl

theorem applyAttrAction_id (d : ElemData) (a v : Option String)
    (h : attrOk a v = false) : applyAttrAction d a v = d := by
  cases a with
  | none => rfl
  | some k =>
    cases v with
    | none => rfl
    | some w =>
      simp only [attrOk, Option.isSome_some, Bool.and_true] at h
      simp [applyAttrAction, h]

mutual
theorem modifyNode_attr_id (sel : Selector) (v a : Option String) (h : attrOk a v = false) :
    ∀ n : DNode, modifyNode sel .attr v a n = some n
  | .txt s => rfl
  | .elem d kids => by
    rw [modifyNode]
    by_cases hm : selMatches sel d = true
    · simp [hm, applyAttrAction_id d a v h, modifyForest_attr_id sel v a h kids]
    · simp [hm, modifyForest_attr_id sel v a h kids]

theorem modifyForest_attr_id (sel : Selector) (v a : Option String) (h : attrOk a v = false) :
    ∀ fo : DForest, modifyForest sel .attr v a fo = fo
  | .nil => rfl
  | .cons k ks => by
    rw [modifyForest, modifyNode_attr_id sel v a h k, modifyForest_attr_id sel v a h ks]
end

/-- Claim C10: a mutate call with the attribute action whose selector
matches at least one node but whose attribute name is missing (or empty)
or whose value is undefined changes no node, yet reports success with
the full match count — the requires-both precondition is not enforced as
a failure. -/
theorem c10_attr_precondition_not_enforced (doc : DForest) (sel : Selector)
    (v a : Option String) (hm : 0 < (querySelAll doc sel).length)
    (ha : attrOk a v = false) :
    modifyElement doc sel .attr v a
      = (doc, { success := true, elementsModified := (querySelAll doc sel).length }) := by
  have hne : (querySelAll doc sel).length ≠ 0 := Nat.pos_iff_ne_zero.mp hm
  have hth : actionThrows .attr v a = false := by simp [actionThrows, ha]
  simp [modifyElement, hne, hth, modifyForest_attr_id sel v a ha doc]

/-- Witness for C10: both list items match, the attribute name is
missing, the document is unchanged and the result reports two modified
elements. -/
theorem c10_attr_witness :
    modifyElement ulDoc (.byTag "li") .attr (some "x") none
      = (ulDoc, { success := true, elementsModified := 2 }) := by
  have h := c10_attr_precondition_not_enforced ulDoc (.byTag "li") (some "x") none
    (by decide) (by decide)
  have h2 : (querySelAll ulDoc (.byTag "li")).length = 2 := by decide
  rw [h, h2]

/-- Claim C4, counterexample: with two open invocations, a result event
whose identifier matches the earlier open invocation t1 is dropped — the
code only compares against the most recently opened invocation, so the
matching open invocation receives no result and no message mutation
occurs. -/
theorem c4_earlier_open_invocation_dropped :
    (demoTwoCalls.toolInvocations.map (fun i => (i.toolCallId, i.result))
      = [("t1", none), ("t2", none)])
    ∧ streamStep "9" demoTwoCalls (.toolResult "t1" "out") = demoTwoCalls := by
  constructor
  · decide
  · decide

/-- Claim C4, amended: a tool-result event is attached only when its
identifier matches the most recently opened invocation, and then only to
that invocation; if there is no invocation, or the identifier differs
from the most recent one (even if it matches an earlier open
invocation), no mutation occurs; a result is never attached to an
invocation whose identifier does not match. -/
theorem c4_result_attachment (aid cid out : String) (st : TurnState) :
    (st.toolInvocations.getLast? = none →
      streamStep aid st (.toolResult cid out) = st)
    ∧ (∀ c, st.toolInvocations.getLast? = some c → c.toolCallId ≠ cid →
      streamStep aid st (.toolResult cid out) = st)
    ∧ (∀ c, st.toolInvocations.getLast? = some c → c.toolCallId = cid →
      (streamStep aid st (.toolResult cid out)).toolInvocations
        = st.toolInvocations.dropLast ++ [{ c with result := some out }])
    ∧ (∀ inv, inv ∈ (streamStep aid st (.toolResult cid out)).toolInvocations →
      inv ∈ st.toolInvocations ∨ inv.toolCallId = cid) := by
  refine ⟨?_, ?_, ?_, ?_⟩
  · intro h
    simp [streamStep, h]
  · intro c hc hne
    have hb : (c.toolCallId == cid) = false := beq_eq_false_iff_ne.mpr hne
    simp [streamStep, hc, hb]
  · intro c hc heq
    have hb : (c.toolCallId == cid) = true := beq_iff_eq.mpr heq
    simp [streamStep, hc, hb]
  · intro inv hinv
    rcases hc : st.toolInvocations.getLast? with _ | c
    · simp only [streamStep, hc] at hinv
      exact Or.inl hinv
    · by_cases heq : c.toolCallId = cid
      · have hb : (c.toolCallId == cid) = true := beq_iff_eq.mpr heq
        simp only [streamStep, hc, hb, if_true] at hinv
        rcases List.mem_append.mp hinv with h1 | h2
        · exact Or.inl (List.dropLast_subset _ h1)
        · rcases List.mem_singleton.mp h2 with rfl
          exact Or.inr heq
      · have hb : (c.toolCallId == cid) = false := beq_eq_false_iff_ne.mpr heq
        simp only [streamStep, hc, hb, if_false] at hinv
        exact Or.inl hinv

/-- Witness for C4 at concrete states: no invocation means no mutation,
and a matching most-recent invocation receives the result. -/
theorem c4_result_attachment_witness :
    streamStep "9" { messages := [], fullContent := "", toolInvocations := [] }
        (.toolResult "t1" "o")
      = { messages := [], fullContent := "", toolInvocations := [] }
    ∧ (streamStep "9" demoOneCall (.toolResult "t1" "o")).toolInvocations
      = [{ toolCallId := "t1", toolName := "searchElements", args := "a1", result := some "o" }] := by
  constructor
  · exact (c4_result_attachment "9" "t1" "o" _).1 rfl
  · have h := (c4_result_attachment "9" "t1" "o" demoOneCall).2.2.1
      { toolCallId := "t1", toolName := "searchElements", args := "a1", result := none }
      (by decide) rfl
    simpa using h

/-- Claim C5: an uncaught fault while establishing or consuming the
stream settles the turn in error — on top of whatever message state the
consumed stream prefix produced (the placeholder assistant message with
its partial streamed text included, nothing rolled back), a new
system-role message carrying the generic failure notice is appended, and
loading is cleared. -/
theorem c5_fault_settles_in_error (prev : List Message) (input : String)
    (uid aid eid : String) (consumed : List StreamPart) (h : trimStr input ≠ "") :
    handleSubmit { messages := prev, isLoading := false } input uid aid eid consumed true
      = { messages :=
            (runStream aid consumed
              { messages := prev ++
                  [{ id := uid, role := .user, content := trimStr input, toolInvocations := none },
                   { id := aid, role := .assistant, content := "", toolInvocations := none }]
                fullContent := ""
                toolInvocations := [] }).messages
            ++ [{ id := eid, role := .system, content := errorNotice, toolInvocations := none }]
          isLoading := false } := by
  have hb : (trimStr input == "") = false := beq_eq_false_iff_ne.mpr h
  simp [handleSubmit, hb]

/-- Witness for C5: two text deltas stream in, then a fault; the partial
assistant text Hi there is kept and a system failure message follows it. -/
theorem c5_fault_witness :
    handleSubmit { messages := [], isLoading := false } "hello" "u" "a" "e"
        [.textDelta "Hi", .textDelta " there"] true
      = { messages :=
            [{ id := "u", role := .user, content := "hello", toolInvocations := none },
             { id := "a", role := .assistant, content := "Hi there", toolInvocations := none },
             { id := "e", role := .system, content := errorNotice, toolInvocations := none }]
          isLoading := false } := by
  have h := c5_fault_settles_in_error [] "hello" "u" "a" "e"
    [.textDelta "Hi", .textDelta " there"] (by decide)
  rw [h]
  decide

theorem selMatches_set_style (sel : Selector) (d : ElemData) (s : StyleMap) :
    selMatches sel { d with style := s } = selMatches sel d := by
  cases sel <;> rfl

mutual
theorem removeNode_count (sel : Selector) (v a : Option String) :
    ∀ (n n2 : DNode), modifyNode sel .remove v a n = some n2 →
    ∀ (inW : Bool) (par : Option (String × Nat)),
      List.countP (fun f => selMatches sel f.data) (flattenNode n2 inW par) = 0
  | .txt s, n2, h => by
    rw [modifyNode] at h
    cases h
    intro inW par
    simp [flattenNode]
  | .elem d kids, n2, h => by
    rw [modifyNode] at h
    cases hm : selMatches sel d with
    | true =>
      simp only [hm, if_true] at h
      cases h
    | false =>
      simp only [hm, Bool.false_eq_true, if_false, Option.some.injEq] at h
      cases h
      intro inW par
      rw [flattenNode]
      simp only [List.countP_cons, hm]
      simpa using removeForest_count sel v a kids _ _ _

theorem removeForest_count (sel : Selector) (v a : Option String) :
    ∀ (fo : DForest) (inW : Bool) (ptag : String) (i : Nat),
      List.countP (fun f => selMatches sel f.data)
        (flattenForest (modifyForest sel .remove v a fo) inW ptag i) = 0
  | .nil, inW, ptag, i => by
    rw [modifyForest]
    simp [flattenForest]
  | .cons k ks, inW, ptag, i => by
    rw [modifyForest]
    rcases hk : modifyNode sel .remove v a k with _ | k2
    · simp only [hk]
      exact removeForest_count sel v a ks inW ptag i
    · simp only [hk]
      cases k2 with
      | txt s =>
        rw [flattenForest]
        exact removeForest_count sel v a ks inW ptag i
      | elem d2 kid2 =>
        rw [flattenForest]
        rw [List.countP_append]
        rw [removeNode_count sel v a k (.elem d2 kid2) hk inW (some (ptag, i))]
        rw [removeForest_count sel v a ks inW ptag (i + 1)]

end

theorem removeTop_count (sel : Selector) (v a : Option String) :
    ∀ fo : DForest,
      List.countP (fun f => selMatches sel f.data)
        (flattenTop (modifyForest sel .remove v a fo)) = 0
  | .nil => by
    rw [modifyForest]
    simp [flattenTop]
  | .cons k ks => by
    rw [modifyForest]
    rcases hk : modifyNode sel .remove v a k with _ | k2
    · simp only [hk]
      exact removeTop_count sel v a ks
    · simp only [hk]
      rw [flattenTop]
      rw [List.countP_append]
      rw [removeNode_count sel v a k k2 hk false none]
      rw [removeTop_count sel v a ks]

mutual
theorem hlNode_transition (sel : Selector) (e : Effect) (color : String) (dur : Nat) :
    ∀ (n : DNode) (inW : Bool) (par : Option (String × Nat)) (f : FlatElem),
      f ∈ flattenNode (highlightNode sel e color dur n) inW par →
      selMatches sel f.data = true →
      getProp f.data.style "transition" = "all 0.3s ease"
  | .txt s, inW, par, f, hf, hm => by
    rw [highlightNode] at hf
    simp [flattenNode] at hf
  | .elem d kids, inW, par, f, hf, hm => by
    rw [highlightNode] at hf
    rw [flattenNode] at hf
    rcases List.mem_cons.mp hf with h1 | h2
    · cases hmd : selMatches sel d with
      | true =>
        subst h1
        simp only [hmd, if_true]
        exact getProp_applyEffect_transition e color dur d.style
      | false =>
        subst h1
        rw [hmd] at hm
        simp only [Bool.false_eq_true, if_false] at hm
        rw [hmd] at hm
        cases hm
    · exact hlForest_transition sel e color dur kids _ _ _ f h2 hm

theorem hlForest_transition (sel : Selector) (e : Effect) (color : String) (dur : Nat) :
    ∀ (fo : DForest) (inW : Bool) (ptag : String) (i : Nat) (f : FlatElem),
      f ∈ flattenForest (highlightForest sel e color dur fo) inW ptag i →
      selMatches sel f.data = true →
      getProp f.data.style "transition" = "all 0.3s ease"
  | .nil, inW, ptag, i, f, hf, hm => by
    rw [highlightForest] at hf
    simp [flattenForest] at hf
  | .cons k ks, inW, ptag, i, f, hf, hm => by
    rw [highlightForest] at hf
    cases k with
    | txt s =>
      rw [highlightNode, flattenForest] at hf
      exact hlForest_transition sel e color dur ks inW ptag i f hf hm
    | elem d kids =>
      rw [highlightNode, flattenForest] at hf
      rcases List.mem_append.mp hf with h1 | h2
      · refine hlNode_transition sel e color dur (.elem d kids) inW (some (ptag, i)) f ?_ hm
        rw [highlightNode]
        exact h1
      · exact hlForest_transition sel e color dur ks inW ptag (i + 1) f h2 hm

end

theorem hlTop_transition (sel : Selector) (e : Effect) (color : String) (dur : Nat) :
    ∀ (fo : DForest) (f : FlatElem),
      f ∈ flattenTop (highlightForest sel e color dur fo) →
      selMatches sel f.data = true →
      getProp f.data.style "transition" = "all 0.3s ease"
  | .nil, f, hf, hm => by
    rw [highlightForest] at hf
    simp [flattenTop] at hf
  | .cons k ks, f, hf, hm => by
    rw [highlightForest, flattenTop] at hf
    rcases List.mem_append.mp hf with h1 | h2
    · exact hlNode_transition sel e color dur k false none f h1 hm
    · exact hlTop_transition sel e color dur ks f h2 hm

/-- Claim C2, counterexample: the widget's own subtree is not excluded
from mutation.  On a document whose only paragraph lies inside the
widget container, a text mutation matches it, reports one modified
element, and changes its text; a border highlight likewise styles it. -/
theorem c2_widget_node_mutated :
    ((flattenTop widgetDoc).filter (fun f => f.data.classes.contains "victim")).map
        (fun f => (f.inWidget, f.textC)) = [(true, "hi")]
    ∧ ((flattenTop (modifyElement widgetDoc (.byClass "victim") .text (some "pwned") none).1).filter
        (fun f => f.data.classes.contains "victim")).map
        (fun f => (f.inWidget, f.textC)) = [(true, "pwned")]
    ∧ (modifyElement widgetDoc (.byClass "victim") .text (some "pwned") none).2
      = { success := true, elementsModified := 1 }
    ∧ ((flattenTop (highlightElements widgetDoc (.byClass "victim") .border "red" 5).1).filter
        (fun f => f.data.classes.contains "victim")).map
        (fun f => (f.inWidget, getProp f.data.style "transition"))
      = [(true, "all 0.3s ease")] := by
  refine ⟨by decide, by decide, by decide, by decide⟩

/-- Claim C2, amended: the mutation operations apply to every node
matching the selector with no widget-subtree exclusion (only search
excludes the widget subtree).  In particular a remove mutation detaches
every matching node — afterwards no node matches the selector — and a
highlight styles every matching node, widget-internal or not. -/
theorem c2_mutations_cover_all_matches (doc : DForest) (sel : Selector)
    (v a : Option String) (e : Effect) (color : String) (dur : Nat) :
    (querySelAll (modifyElement doc sel .remove v a).1 sel).length = 0
    ∧ (∀ f ∈ flattenTop (highlightElements doc sel e color dur).1,
        selMatches sel f.data = true →
        getProp f.data.style "transition" = "all 0.3s ease") := by
  constructor
  · by_cases h : (querySelAll doc sel).length = 0
    · simp [modifyElement, h]
    · simp only [modifyElement, h, beq_iff_eq, if_false]
      rw [querySelAll, ← List.countP_eq_length_filter]
      exact removeTop_count sel v a doc
  · intro f hf hm
    by_cases h : (querySelAll doc sel).length = 0
    · simp only [highlightElements, h, beq_self_eq_true, if_true] at hf
      have hempty : (flattenTop doc).filter (fun g => selMatches sel g.data) = [] :=
        List.length_eq_zero.mp h
      have hmem : f ∈ (flattenTop doc).filter (fun g => selMatches sel g.data) :=
        List.mem_filter.mpr ⟨hf, hm⟩
      rw [hempty] at hmem
      exact absurd hmem (List.not_mem_nil f)
    · simp only [highlightElements, h, beq_iff_eq, if_false] at hf
      exact hlTop_transition sel e color dur doc f hf hm

/-- Witness for C2 on the widget document: after removing every victim
node none remains, and the highlighted widget-internal paragraph indeed
carries the applied transition. -/
theorem c2_mutations_witness :
    (querySelAll (modifyElement widgetDoc (.byClass "victim") .remove none none).1
      (.byClass "victim")).length = 0
    ∧ getProp victimHighlighted.data.style "transition" = "all 0.3s ease" := by
  constructor
  · exact (c2_mutations_cover_all_matches widgetDoc (.byClass "victim") none none
      .border "red" 5).1
  · exact (c2_mutations_cover_all_matches widgetDoc (.byClass "victim") none none
      .border "red" 5).2 victimHighlighted (by decide) (by decide)

end ChatWidgetSpec
